import Mathlib

/-
Shallow embedding of `src/mariadb_monitor_rich.py` (maskung/servmon), a
curses dashboard that polls MariaDB statistics and a PHP-FPM process count,
keeps a bounded connection history, and renders gauges, tables and a chart.

Conventions of the embedding:
* Machine integers from the source are modelled as `Nat` (all counts in the
  program are non-negative); exact percentages use `Rat` (Python float
  arithmetic on these small values is exact enough that the spec treats the
  formulas as exact rational arithmetic).
* `int(x)` applied to a non-negative quotient is natural-number division.
* Fallible acquisition is `Option`: `none` models the source failing
  (connection error, query error, command failure).
* Attribute lookup on the monitor object is modelled by a method-name table:
  calling a name absent from the table is the `AttributeError` path,
  modelled with `Except String`.
-/

namespace ServMon

/-- Severity tiers of the connection-usage classifier embedded from the
`if percentage < 30 ... else DANGER` chain in `draw_progress_bar`
(lines 177-201 of the source). -/
inductive SeverityTier where
  | SAFE
  | GOOD
  | MODERATE
  | HIGH
  | CRITICAL
  | DANGER
deriving DecidableEq, Repr

/-- The threshold classifier of `draw_progress_bar` (lines 178-201):
successive `percentage < bound` tests selecting the status tier. -/
def classify (p : ℚ) : SeverityTier :=
  if p < 30 then SeverityTier.SAFE
  else if p < 50 then SeverityTier.GOOD
  else if p < 70 then SeverityTier.MODERATE
  else if p < 85 then SeverityTier.HIGH
  else if p < 95 then SeverityTier.CRITICAL
  else SeverityTier.DANGER

/-- One row of `INFORMATION_SCHEMA.PROCESSLIST` as fetched in `get_stats`
(lines 118-125): all string fields nullable, `Time` an integer. -/
structure ProcessRow where
  user : Option String
  host : Option String
  db : Option String
  command : Option String
  time : ℕ
  state : Option String
deriving DecidableEq, Repr

/-- One (user, count) aggregate row from `get_stats` (lines 128-135). -/
structure UserConn where
  user : Option String
  count : ℕ
deriving DecidableEq, Repr

/-- The raw values fetched from the database in one successful `get_stats`
database phase (lines 97-135), before the usage percentage is derived. -/
structure DbRaw where
  max_connections : ℕ
  current_connections : ℕ
  threads_running : ℕ
  max_used_connections : ℕ
  aborted_connects : ℕ
  active_processes : List ProcessRow
  user_connections : List UserConn
  timestamp : ℕ
deriving DecidableEq, Repr

/-- Usage percentage as computed at line 145:
`(current_connections / self.max_connections) * 100 if self.max_connections > 0 else 0`. -/
def usage_percentage (current maxc : ℕ) : ℚ :=
  if 0 < maxc then ((current : ℚ) / (maxc : ℚ)) * 100 else 0

/-- One entry of `self.connection_history` as appended at lines 151-155. -/
structure HistoryEntry where
  timestamp : ℕ
  connections : ℕ
  usage : ℚ
deriving DecidableEq, Repr

/-- Push on `deque(maxlen=30)`: the buffer keeps the last 30 entries, the
oldest evicted first (line 33 together with lines 150-155). -/
def histPush (buf : List HistoryEntry) (e : HistoryEntry) : List HistoryEntry :=
  let full := buf ++ [e]
  full.drop (full.length - 30)

/-- Slicing `list(self.connection_history)[-n:]`: the most recent `n` entries in
chronological order (line 389 uses `n = 10`). -/
def recent (n : ℕ) (buf : List HistoryEntry) : List HistoryEntry :=
  buf.drop (buf.length - n)

/-- The merged statistics dictionary that `get_stats` returns: the database
sub-result and the PHP-FPM count are each present or absent independently. -/
structure Stats where
  db : Option (DbRaw × ℚ)
  php_fpm_connections : Option ℕ
deriving DecidableEq, Repr

/-- Model of `get_php_fpm_connections` (lines 68-78): a parsed line count on success,
`-1` on any command/parse failure. -/
def get_php_fpm_connections (parsed : Option ℕ) : ℤ :=
  match parsed with
  | some n => (n : ℤ)
  | none => -1

/-- Model of `get_stats` (lines 80-168). `dbData` is the outcome of the database
phase (`none` when the connection or the queries fail, in which case
nothing database-related is stored and no history entry is appended);
`phpParsed` is the outcome of the netstat command. Returns the optional
stats dictionary (`none` when it would be empty) and the updated history. -/
def get_stats (dbData : Option DbRaw) (phpParsed : Option ℕ)
    (hist : List HistoryEntry) : Option Stats × List HistoryEntry :=
  let php := get_php_fpm_connections phpParsed
  let phpField : Option ℕ := if php ≠ -1 then some php.toNat else none
  match dbData with
  | none =>
      let s : Stats := { db := none, php_fpm_connections := phpField }
      (if s.db.isSome ∨ s.php_fpm_connections.isSome then some s else none, hist)
  | some raw =>
      let usage := usage_percentage raw.current_connections raw.max_connections
      let hist' := histPush hist
        { timestamp := raw.timestamp, connections := raw.current_connections,
          usage := usage }
      (some { db := some (raw, usage), php_fpm_connections := phpField }, hist')

/-- Filled-segment count of a gauge, line 208:
`int((width * current) / maximum) if maximum > 0 else 0`. -/
def filled_width (width current maximum : ℕ) : ℕ :=
  if 0 < maximum then (width * current) / maximum else 0

/-- The rows actually drawn by `draw_process_table`: line 347 iterates over
`processes[:6]`. -/
def draw_process_table_rows (processes : List ProcessRow) : List ProcessRow :=
  processes.take 6

/-- One bar of the history chart (lines 394-413). -/
structure ChartBar where
  time : ℕ
  bar_length : ℕ
  connections : ℕ
  usage : ℚ
deriving DecidableEq, Repr

/-- The `max_scale` of `draw_history_chart` (lines 391-392): the maximum
connection count among the charted entries, at least 1. -/
def chartScale (entries : List HistoryEntry) : ℕ :=
  max ((entries.map (fun h => h.connections)).foldr max 0) 1

/-- Bar length at line 400: `int((connections / max_scale) * 20)`. -/
def bar_length (connections scale : ℕ) : ℕ :=
  connections * 20 / scale

/-- Model of `draw_history_chart` (lines 378-415): with fewer than 2 history entries
only the `Loading history...` placeholder is shown (`none`); otherwise the
last 10 entries are charted. -/
def draw_history_chart (hist : List HistoryEntry) : Option (List ChartBar) :=
  if hist.length < 2 then none
  else
    let recent_history := recent 10 hist
    let scale := chartScale recent_history
    some (recent_history.map (fun e =>
      { time := e.timestamp, bar_length := bar_length e.connections scale,
        connections := e.connections, usage := e.usage }))

/-- The methods defined on class `MariaDBCursesMonitor`; Python attribute
lookup of any other name raises `AttributeError`. -/
def definedMethods : List String :=
  ["init_colors", "get_db_connection", "get_php_fpm_connections", "get_stats",
   "draw_progress_bar", "draw_stats_table", "draw_process_table",
   "draw_user_connections", "draw_history_chart", "draw_dashboard",
   "run_curses", "run"]

/-- One gauge call site of `draw_dashboard`: the method name it references,
its label, the current value and the maximum. -/
structure GaugeCall where
  target : String
  label : String
  current : ℕ
  maximum : ℕ
deriving DecidableEq, Repr

/-- The gauge call sites of `draw_dashboard` (lines 445-461), in source
order, guarded exactly as in the source: the first two fire when database
stats are present, the third when the PHP-FPM count is present. Note the
second call site references `draw_program_bar` (line 452). -/
def gaugeCalls (s : Stats) : List GaugeCall :=
  (match s.db with
   | some (raw, _) =>
      [{ target := "draw_progress_bar", label := "MariaDB Connections",
         current := raw.current_connections, maximum := raw.max_connections },
       { target := "draw_program_bar", label := "Running Threads",
         current := raw.threads_running,
         maximum := max raw.current_connections 1 }]
   | none => []) ++
  (match s.php_fpm_connections with
   | some n =>
      [{ target := "draw_progress_bar", label := "PHP-FPM Connections",
         current := n, maximum := 150 }]
   | none => [])

/-- Resolving one gauge call: attribute lookup on the monitor object. -/
def renderGauge (g : GaugeCall) : Except String GaugeCall :=
  if g.target ∈ definedMethods then Except.ok g
  else Except.error ("AttributeError: " ++ g.target)

/-- One section of the rendered dashboard. -/
inductive Panel where
  | noData
  | header
  | gauge (g : GaugeCall)
  | statsTable
  | userConnections
  | processTable (rows : List ProcessRow)
  | historyChart (bars : Option (List ChartBar))
  | footer
deriving DecidableEq, Repr

/-- The active-process list handed to `draw_process_table` at line 473:
`stats.get('active_processes')`, empty when the database stats are absent. -/
def activeOf (s : Stats) : List ProcessRow :=
  match s.db with
  | some (raw, _) => raw.active_processes
  | none => []

/-- Model of `draw_dashboard` (lines 417-484): with no stats at all only the
no-data message is drawn; otherwise header, the gauge stack (each gauge
resolved by attribute lookup, so an undefined name aborts the frame with
an exception), the two columns and the footer. -/
def draw_dashboard (stats : Option Stats) (hist : List HistoryEntry) :
    Except String (List Panel) :=
  match stats with
  | none => Except.ok [Panel.noData]
  | some s => do
      let gs ← (gaugeCalls s).mapM renderGauge
      Except.ok ([Panel.header] ++ gs.map Panel.gauge ++
        [Panel.statsTable, Panel.userConnections,
         Panel.processTable (draw_process_table_rows (activeOf s)),
         Panel.historyChart (draw_history_chart hist), Panel.footer])

/-- Whether a `getch` result is the quit key (`'q'` or `'Q'`), as tested at
lines 497 and 507; `none` models the timeout return `-1`. -/
def isQuit (k : Option Char) : Bool :=
  k = some 'q' || k = some 'Q'

/-- The interruptible wait phase of `run_curses` (lines 504-510): up to 50
fine-grained steps; each step polls one key and stops immediately when it
is the quit key. Returns how many polling steps ran and whether the loop
is still running afterwards (`is_running`). `i` is the index of the next
key to poll; fuel counts the remaining iterations of `range(50)`. -/
def wait_loop : ℕ → ℕ → (ℕ → Option Char) → ℕ × Bool
  | 0, i, _ => (i, true)
  | n + 1, i, keys =>
      if isQuit (keys i) then (i + 1, false)
      else wait_loop n (i + 1) keys

/-- The full 5-second wait phase: 50 polling steps of 100ms grain. -/
def wait_phase (keys : ℕ → Option Char) : ℕ × Bool :=
  wait_loop 50 0 keys

/-- C1: for every non-negative percentage `p` the classifier assigns the
tier of the half-open, left-inclusive partition
`[0,30)→SAFE, [30,50)→GOOD, [50,70)→MODERATE, [70,85)→HIGH,
[85,95)→CRITICAL, [95,∞)→DANGER` (and, being a function, exactly one
tier); the boundaries are exact: `classify 29.999 = SAFE`,
`classify 30 = GOOD`, `classify 95 = DANGER`. -/
theorem classify_partition :
    (∀ p : ℚ, 0 ≤ p →
      (p < 30 → classify p = SeverityTier.SAFE) ∧
      ((30 ≤ p ∧ p < 50) → classify p = SeverityTier.GOOD) ∧
      ((50 ≤ p ∧ p < 70) → classify p = SeverityTier.MODERATE) ∧
      ((70 ≤ p ∧ p < 85) → classify p = SeverityTier.HIGH) ∧
      ((85 ≤ p ∧ p < 95) → classify p = SeverityTier.CRITICAL) ∧
      (95 ≤ p → classify p = SeverityTier.DANGER)) ∧
    classify (29.999 : ℚ) = SeverityTier.SAFE ∧
    classify 30 = SeverityTier.GOOD ∧
    classify 95 = SeverityTier.DANGER := by
  refine ⟨fun p hp => ⟨?_, ?_, ?_, ?_, ?_, ?_⟩, ?_, ?_, ?_⟩
  · intro h
    simp only [classify, if_pos h]
  · rintro ⟨h1, h2⟩
    simp only [classify]
    rw [if_neg (by linarith), if_pos h2]
  · rintro ⟨h1, h2⟩
    simp only [classify]
    rw [if_neg (by linarith), if_neg (by linarith), if_pos h2]
  · rintro ⟨h1, h2⟩
    simp only [classify]
    rw [if_neg (by linarith), if_neg (by linarith), if_neg (by linarith),
      if_pos h2]
  · rintro ⟨h1, h2⟩
    simp only [classify]
    rw [if_neg (by linarith), if_neg (by linarith), if_neg (by linarith),
      if_neg (by linarith), if_pos h2]
  · intro h
    simp only [classify]
    rw [if_neg (by linarith), if_neg (by linarith), if_neg (by linarith),
      if_neg (by linarith), if_neg (by linarith)]
  · norm_num [classify]
  · norm_num [classify]
  · norm_num [classify]

/-- Witness for C1 at `p = 40`. -/
theorem classify_partition_witness :
    classify 40 = SeverityTier.GOOD :=
  (classify_partition.1 40 (by norm_num)).2.1 ⟨by norm_num, by norm_num⟩

/-- C7: for a fetched database result, `usage_percentage` is exactly
`current / max * 100` when `max > 0` (characterized multiplicatively, which
determines the rational uniquely) and `0` when `max = 0` with no division
fault; `75 / 150 * 100 = 50` exactly. -/
theorem usage_percentage_spec :
    (∀ c m : ℕ, 0 < m → usage_percentage c m * m = c * 100) ∧
    (∀ c : ℕ, usage_percentage c 0 = 0) ∧
    usage_percentage 75 150 = 50 := by
  refine ⟨fun c m hm => ?_, fun c => by simp [usage_percentage],
    by norm_num [usage_percentage]⟩
  simp only [usage_percentage, if_pos hm]
  have hm' : (m : ℚ) ≠ 0 := Nat.cast_ne_zero.mpr hm.ne'
  field_simp

/-- Witness for C7 at `current = 1`, `max = 4`. -/
theorem usage_percentage_witness :
    usage_percentage 1 4 * 4 = 1 * 100 :=
  usage_percentage_spec.1 1 4 (by norm_num)

/-- C8: the filled-segment count is the integer truncation (floor, all
quantities non-negative) of `(width * current) / maximum` when
`maximum > 0`, and `0` when `maximum = 0` with no exception; in
particular `w=40, c=20, m=40` gives 20 and `c=0` gives 0. -/
theorem filled_width_spec :
    (∀ w c m : ℕ, 0 < m → filled_width w c m = ⌊((w : ℚ) * c) / m⌋₊) ∧
    (∀ w c : ℕ, filled_width w c 0 = 0) ∧
    (∀ w m : ℕ, filled_width w 0 m = 0) ∧
    filled_width 40 20 40 = 20 := by
  refine ⟨fun w c m hm => ?_, fun w c => by simp [filled_width],
    fun w m => by simp [filled_width], by norm_num [filled_width]⟩
  simp only [filled_width, if_pos hm]
  have h : ((w : ℚ) * c) = ((w * c : ℕ) : ℚ) := by push_cast; ring
  rw [h, Nat.floor_div_nat, Nat.floor_natCast]

/-- Witness for C8 at `w = 40`, `c = 20`, `m = 40`. -/
theorem filled_width_witness :
    filled_width 40 20 40 = ⌊((40 : ℚ) * 20) / 40⌋₊ :=
  filled_width_spec.1 40 20 40 (by norm_num)

/-- Dropping down to the last `n` elements ignores any prefix, provided the
rest is at least `n` long. -/
theorem drop_sub_append {α : Type} (a c : List α) (n : ℕ) (h : n ≤ c.length) :
    (a ++ c).drop ((a ++ c).length - n) = c.drop (c.length - n) := by
  rw [List.length_append]
  have he : a.length + c.length - n = a.length + (c.length - n) := by omega
  rw [he, List.drop_append]

/-- Prepending dropped-away elements back in front of a last-`n` slice does
not change a subsequent last-`n` slice. -/
theorem drop_sub_append_left {α : Type} (x y : List α) (n : ℕ) :
    (x.drop (x.length - n) ++ y).drop
        ((x.drop (x.length - n) ++ y).length - n) =
      (x ++ y).drop ((x ++ y).length - n) := by
  by_cases h : x.length ≤ n
  · rw [Nat.sub_eq_zero_of_le h, List.drop_zero]
  · have h30 : n ≤ (x.drop (x.length - n) ++ y).length := by
      simp only [List.length_append, List.length_drop]
      omega
    conv_rhs => rw [← List.take_append_drop (x.length - n) x,
      List.append_assoc]
    rw [drop_sub_append _ _ n h30]

/-- One `histPush` keeps the buffer within capacity 30. -/
theorem histPush_length_le (buf : List HistoryEntry) (e : HistoryEntry) :
    (histPush buf e).length ≤ 30 := by
  simp only [histPush, List.length_drop, List.length_append,
    List.length_singleton]
  omega

/-- Folding `histPush` over a stream of entries from a within-capacity
buffer yields exactly the last 30 of the whole concatenation. -/
theorem histPush_foldl (es : List HistoryEntry) (b : List HistoryEntry)
    (hb : b.length ≤ 30) :
    List.foldl histPush b es = (b ++ es).drop ((b ++ es).length - 30) := by
  induction es generalizing b with
  | nil =>
      simp only [List.foldl_nil, List.append_nil]
      rw [Nat.sub_eq_zero_of_le hb, List.drop_zero]
  | cons e es ih =>
      rw [List.foldl_cons, ih _ (histPush_length_le b e)]
      have hstep : histPush b e = (b ++ [e]).drop ((b ++ [e]).length - 30) := by
        simp [histPush]
      have hbe : b ++ e :: es = (b ++ [e]) ++ es := by
        rw [List.append_assoc, List.singleton_append]
      rw [hstep, hbe]
      exact drop_sub_append_left (b ++ [e]) es 30

/-- C4: the history buffer holds at most 30 entries after any push; pushing
31 entries into an empty buffer leaves exactly the last 30 in their
original (chronological) order, the oldest evicted; and taking the most
recent 10 of a 5-entry buffer yields all 5 entries in original order. -/
theorem history_buffer_spec :
    (∀ (buf : List HistoryEntry) (e : HistoryEntry),
      (histPush buf e).length ≤ 30) ∧
    (∀ es : List HistoryEntry, es.length = 31 →
      List.foldl histPush [] es = es.drop 1) ∧
    (∀ buf : List HistoryEntry, buf.length = 5 → recent 10 buf = buf) := by
  refine ⟨histPush_length_le, fun es h => ?_, fun buf h => ?_⟩
  · rw [histPush_foldl es [] (by decide), List.nil_append, h]
  · simp only [recent, h]
    norm_num

/-- Witness for C4 on concrete 31-entry and 5-entry buffers. -/
theorem history_buffer_witness :
    List.foldl histPush [] (List.replicate 31 ⟨0, 0, 0⟩) =
      (List.replicate 31 (⟨0, 0, 0⟩ : HistoryEntry)).drop 1 ∧
    recent 10 (List.replicate 5 ⟨0, 0, 0⟩) =
      List.replicate 5 (⟨0, 0, 0⟩ : HistoryEntry) :=
  ⟨history_buffer_spec.2.1 _ (by simp),
   history_buffer_spec.2.2 _ (by simp)⟩

/-- C5: when the database source fails (`dbData = none`) but the netstat
command succeeds with count `n`, `get_stats` returns a stats dictionary
with no database fields and the populated process count, and leaves the
history untouched. -/
theorem sampler_db_fail_spec :
    ∀ (n : ℕ) (hist : List HistoryEntry),
      get_stats none (some n) hist =
        (some { db := none, php_fpm_connections := some n }, hist) := by
  intro n hist
  have hn : (n : ℤ) ≠ -1 := by omega
  simp [get_stats, get_php_fpm_connections, hn]

/-- C6: when both sources fail, `get_stats` returns the distinguished empty
result (`none`) without raising and with the history untouched, and
rendering the empty result produces only the centered no-data message —
no gauges, no tables, no chart. -/
theorem both_fail_spec :
    ∀ hist : List HistoryEntry,
      get_stats none none hist = (none, hist) ∧
      draw_dashboard none hist = Except.ok [Panel.noData] := by
  intro hist
  refine ⟨?_, rfl⟩
  simp [get_stats, get_php_fpm_connections]

/-- A concrete successful database fetch used as a failing input for the
renderer. -/
def exRaw : DbRaw :=
  { max_connections := 150, current_connections := 75, threads_running := 5,
    max_used_connections := 80, aborted_connects := 0,
    active_processes := [], user_connections := [], timestamp := 0 }

/-- C2 (failing-input evaluation): `draw_progress_bar` is a method of the
monitor class but `draw_program_bar` — the name the second gauge call site
references — is not, so rendering a snapshot that has database statistics
aborts the gauge stack with an `AttributeError` instead of completing it. -/
theorem gauge_stack_attribute_error :
    ("draw_progress_bar" ∈ definedMethods ∧
     "draw_program_bar" ∉ definedMethods) ∧
    draw_dashboard
      (some { db := some (exRaw, usage_percentage 75 150),
              php_fpm_connections := none }) [] =
      Except.error "AttributeError: draw_program_bar" := by
  refine ⟨⟨by decide, by decide⟩, ?_⟩
  rfl

/-- A concrete process row. -/
def exProc : ProcessRow :=
  { user := some "app", host := some "localhost", db := some "mreport",
    command := some "Query", time := 3, state := none }

/-- C3 counterexample: an 8-entry active-process list (the maximum the
query can return) yields a table with fewer drawn rows than entries. -/
theorem process_table_counterexample :
    (draw_process_table_rows (List.replicate 8 exProc)).length ≠
      (List.replicate 8 exProc).length := by
  simp [draw_process_table_rows]

/-- C3 amended: for every non-empty active-process list the table draws
`min(length, 6)` rows — one row per entry only up to 6 rows; entries
beyond the sixth are not drawn even though the list may hold up to 8. -/
theorem process_table_amended :
    ∀ ps : List ProcessRow, ps ≠ [] →
      (draw_process_table_rows ps).length = min ps.length 6 ∧
      (∀ i : ℕ, i < 6 → (draw_process_table_rows ps)[i]? = ps[i]?) := by
  intro ps _
  constructor
  · simp [draw_process_table_rows, Nat.min_comm]
  · intro i hi
    simp [draw_process_table_rows, List.getElem?_take, hi]

/-- Witness for C3's amended theorem on a 1-entry list. -/
theorem process_table_amended_witness :
    (draw_process_table_rows [exProc]).length = min [exProc].length 6 :=
  (process_table_amended [exProc] (by simp)).1

/-- C10: with fewer than 2 history entries (in particular a single entry)
the chart draws no bars and shows only the placeholder; once the buffer
length reaches 2, it charts exactly the last (up to) 10 entries, each bar
scaled to the maximum connection count among them (minimum scale 1). -/
theorem history_chart_spec :
    ∀ hist : List HistoryEntry,
      (hist.length < 2 → draw_history_chart hist = none) ∧
      (2 ≤ hist.length →
        draw_history_chart hist =
          some ((recent 10 hist).map (fun e =>
            { time := e.timestamp,
              bar_length := bar_length e.connections
                (chartScale (recent 10 hist)),
              connections := e.connections, usage := e.usage })) ∧
        (recent 10 hist).length = min 10 hist.length) := by
  intro hist
  constructor
  · intro h
    simp [draw_history_chart, h]
  · intro h
    have h' : ¬ hist.length < 2 := by omega
    refine ⟨by simp [draw_history_chart, h'], ?_⟩
    simp only [recent, List.length_drop]
    omega

/-- Witness for C10 on a 1-entry and a 2-entry history. -/
theorem history_chart_witness :
    draw_history_chart [⟨0, 5, 10⟩] = none ∧
    (recent 10 [⟨0, 5, 10⟩, ⟨1, 8, 16⟩]).length =
      min 10 ([⟨0, 5, 10⟩, (⟨1, 8, 16⟩ : HistoryEntry)].length) :=
  ⟨(history_chart_spec [⟨0, 5, 10⟩]).1 (by norm_num),
   ((history_chart_spec [⟨0, 5, 10⟩, ⟨1, 8, 16⟩]).2 (by norm_num)).2⟩

/-- If the quit key first appears at polling step `i` within the fuel, the
wait loop stops right there: `i + 1` polls done, `is_running` cleared. -/
theorem wait_loop_quit (n : ℕ) :
    ∀ (s : ℕ) (keys : ℕ → Option Char) (i : ℕ), i < n →
      isQuit (keys (s + i)) = true →
      (∀ j, j < i → isQuit (keys (s + j)) = false) →
      wait_loop n s keys = (s + i + 1, false) := by
  induction n with
  | zero => intro s keys i hi; omega
  | succ n ih =>
      intro s keys i hi hq hprev
      match i with
      | 0 =>
          simp only [Nat.add_zero] at hq
          simp [wait_loop, hq]
      | i + 1 =>
          have h0 : isQuit (keys s) = false := by
            have := hprev 0 (by omega)
            simpa using this
          simp only [wait_loop, h0, Bool.false_eq_true, if_false]
          have := ih (s + 1) keys i (by omega)
            (by rw [show s + 1 + i = s + (i + 1) by omega]; exact hq)
            (fun j hj => by
              rw [show s + 1 + j = s + (j + 1) by omega]
              exact hprev (j + 1) (by omega))
          rw [this]
          congr 1
          omega

/-- If no quit key appears within the fuel, the wait loop runs all steps
and leaves `is_running` set. -/
theorem wait_loop_no_quit (n : ℕ) :
    ∀ (s : ℕ) (keys : ℕ → Option Char),
      (∀ j, j < n → isQuit (keys (s + j)) = false) →
      wait_loop n s keys = (s + n, true) := by
  induction n with
  | zero => intro s keys _; simp [wait_loop]
  | succ n ih =>
      intro s keys hnone
      have h0 : isQuit (keys s) = false := by
        have := hnone 0 (by omega)
        simpa using this
      simp only [wait_loop, h0, Bool.false_eq_true, if_false]
      rw [ih (s + 1) keys (fun j hj => by
        rw [show s + 1 + j = s + (j + 1) by omega]
        exact hnone (j + 1) (by omega))]
      congr 1
      omega

/-- C9: the quit check runs at every one of the 50 fine-grained polling
steps of the 5-second wait: if the quit key is first observed at step `i`,
the wait phase ends immediately after that step (`i + 1` polls, the
running flag cleared) instead of completing the remaining wait; and with
no quit key all 50 steps run. Real time is modelled discretely: one loop
iteration is one polling grain. -/
theorem quit_responsiveness :
    ∀ keys : ℕ → Option Char,
      (∀ i, i < 50 → isQuit (keys i) = true →
        (∀ j, j < i → isQuit (keys j) = false) →
        wait_phase keys = (i + 1, false)) ∧
      ((∀ j, j < 50 → isQuit (keys j) = false) →
        wait_phase keys = (50, true)) := by
  intro keys
  constructor
  · intro i hi hq hprev
    have := wait_loop_quit 50 0 keys i hi (by simpa using hq)
      (fun j hj => by simpa using hprev j hj)
    simpa [wait_phase] using this
  · intro hnone
    have := wait_loop_no_quit 50 0 keys (fun j hj => by simpa using hnone j hj)
    simpa [wait_phase] using this

/-- Witness for C9: quit pressed at step 3 ends the wait after 4 polls. -/
theorem quit_responsiveness_witness :
    wait_phase (fun j => if j = 3 then some 'q' else none) = (3 + 1, false) :=
  (quit_responsiveness (fun j => if j = 3 then some 'q' else none)).1 3
    (by norm_num) (by decide) (by decide)

end ServMon
